import Mathlib

/-!
Shallow embedding of `src/main.rs` of the `cu_backfill` tool.

Bytes are modelled as `Nat` (values of Rust `u8`), byte slices as `List Nat`,
paths and filenames as `String` (path components joined by `'/'`, matching
`PathBuf::join` / `PathBuf::push`), and the destination filesystem as the
`List String` of paths that currently exist.  Rust's checked arithmetic on a
bounded unsigned type `T` is modelled by an explicit bound `max` (`u8`:
255, `u32`: 2^32 - 1).
-/

/-- The `DateTime` struct of the source (fields `u32`/`u8`, modelled as `Nat`;
the bounds are enforced where the source enforces them, by `atou`'s checked
arithmetic). -/
structure DateTime where
  year : Nat
  month : Nat
  day : Nat
  hour : Nat
  minute : Nat
  second : Nat
deriving DecidableEq, Repr

/-- Maximum value of Rust `u8`. -/
def U8MAX : Nat := 255

/-- Maximum value of Rust `u32`. -/
def U32MAX : Nat := 4294967295

/-- Loop body of `atou`: Rust's
`for b in bytes { if !b.is_ascii_digit() { bail!(..) }; n = n.checked_mul(&ten).and_then(|n| n.checked_add(&digit)).ok_or(..)? }`,
with the accumulator made explicit.  `max` is the bound of the target
unsigned type; `checked_mul` fails when `n * 10 > max`, `checked_add` fails
when `n * 10 + digit > max`. -/
def atouGo (max : Nat) (n : Nat) : List Nat → Except String Nat
  | [] => Except.ok n
  | b :: bs =>
    if b < 48 ∨ 57 < b then Except.error "non-ascii digit"
    else
      let m := n * 10
      if max < m then Except.error "overflow"
      else
        let m2 := m + (b - 48)
        if max < m2 then Except.error "overflow"
        else atouGo max m2 bs

/-- The source's `fn atou<T>(bytes: &[u8]) -> anyhow::Result<T>`, with the
target type `T` represented by its maximum value `max`. -/
def atou (max : Nat) (bytes : List Nat) : Except String Nat :=
  atouGo max 0 bytes

/-- Decimal value of a digit string, starting from accumulator `acc`
(specification-side companion of `atouGo`). -/
def decValFrom (acc : Nat) (l : List Nat) : Nat :=
  l.foldl (fun a b => a * 10 + (b - 48)) acc

/-- Decimal value of an ASCII digit string. -/
def decVal (l : List Nat) : Nat := decValFrom 0 l

/-- Bytes of a string literal (each character's code point; all the literals
used are ASCII, so this is the Rust byte string). -/
def strBytes (s : String) : List Nat := s.data.map Char.toNat

/-- The blank sentinel `b"    :  :     :  :  "` of the source. -/
def blankColons : List Nat := strBytes "    :  :     :  :  "

/-- The blank sentinel `b"                   "` (19 spaces) of the source. -/
def blankSpaces : List Nat := strBytes "                   "

/-- Rust slice `&data[a..e]`. -/
def sliceBytes (l : List Nat) (a e : Nat) : List Nat := (l.drop a).take (e - a)

/-- The source's `fn parse_exif_datetime(data: &[u8]) -> anyhow::Result<DateTime>`.
Rust's `?` on each field is the nested match on the `atou` results, with the
fields evaluated in source order. -/
def parse_exif_datetime (data : List Nat) : Except String DateTime :=
  if data = blankColons ∨ data = blankSpaces then Except.error "EXIF DateTime is blank"
  else if data.length < 19 then Except.error "EXIF DateTime too short"
  else if ¬(data.getD 4 0 = 58 ∧ data.getD 7 0 = 58 ∧ data.getD 10 0 = 32 ∧
            data.getD 13 0 = 58 ∧ data.getD 16 0 = 58) then
    Except.error "Invalid EXIF DateTime delimiter"
  else
    match atou U32MAX (sliceBytes data 0 4) with
    | Except.error e => Except.error e
    | Except.ok year =>
    match atou U8MAX (sliceBytes data 5 7) with
    | Except.error e => Except.error e
    | Except.ok month =>
    match atou U8MAX (sliceBytes data 8 10) with
    | Except.error e => Except.error e
    | Except.ok day =>
    match atou U8MAX (sliceBytes data 11 13) with
    | Except.error e => Except.error e
    | Except.ok hour =>
    match atou U8MAX (sliceBytes data 14 16) with
    | Except.error e => Except.error e
    | Except.ok minute =>
    match atou U8MAX (sliceBytes data 17 19) with
    | Except.error e => Except.error e
    | Except.ok second =>
      Except.ok { year := year, month := month, day := day,
                  hour := hour, minute := minute, second := second }

/-- The decimal digit characters, used to model Rust's decimal rendering. -/
def digitChar : Nat → Char
  | 0 => '0' | 1 => '1' | 2 => '2' | 3 => '3' | 4 => '4'
  | 5 => '5' | 6 => '6' | 7 => '7' | 8 => '8' | _ => '9'

/-- Fuel-driven decimal rendering of a natural number (most significant digit
first); with fuel at least 1 this is the usual decimal numeral. -/
def decChars : Nat → Nat → List Char
  | 0, _ => []
  | fuel + 1, n =>
    if n < 10 then [digitChar n]
    else decChars fuel (n / 10) ++ [digitChar (n % 10)]

/-- Rust's `n.to_string()` for an unsigned integer: its decimal numeral. -/
def natStr (n : Nat) : String := ⟨decChars (n + 1) n⟩

/-- Zero padding of a numeral to width `w`, as done by Rust's `{:04}` / `{:02}`
format specifiers (numerals wider than `w` are kept as is). -/
def zeroPad (w : Nat) (s : String) : String :=
  ⟨List.replicate (w - s.data.length) '0' ++ s.data⟩

/-- The timestamp portion of the destination filename:
`format!("{:04}-{:02}-{:02} {:02}.{:02}.{:02}", year, month, day, hour, minute, second)`. -/
def stampStr (dt : DateTime) : String :=
  zeroPad 4 (natStr dt.year) ++ "-" ++ zeroPad 2 (natStr dt.month) ++ "-" ++
  zeroPad 2 (natStr dt.day) ++ " " ++ zeroPad 2 (natStr dt.hour) ++ "." ++
  zeroPad 2 (natStr dt.minute) ++ "." ++ zeroPad 2 (natStr dt.second)

/-- The disambiguation counter fragment: `if n > 0 { s += &n.to_string() }`. -/
def cntString (n : Nat) : String := if 0 < n then natStr n else ""

/-- The extension fragment: `if let Some(ext) = ... { s.push('.'); s += ext }`. -/
def extString : Option String → String
  | some e => "." ++ e
  | none => ""

/-- The `filename` closure of `main`: timestamp, then the counter when
`n > 0`, then `.` + the original extension when there is one. -/
def filename (dt : DateTime) (ext : Option String) (n : Nat) : String :=
  stampStr dt ++ cntString n ++ extString ext

/-- `args.dst.join(datetime.year.to_string())`: the year-bucket directory. -/
def yearDirOf (dst : String) (dt : DateTime) : String :=
  dst ++ "/" ++ natStr dt.year

/-- `if !new_path.exists() { std::fs::create_dir_all(&new_path).unwrap(); }`:
the filesystem after ensuring the year directory exists. -/
def fsAfterMkdir (fs : List String) (yearDir : String) : List String :=
  if yearDir ∈ fs then fs else yearDir :: fs

/-- The collision-probing loop of `main`
(`let mut n = 1; while new_path.exists() { new_path.set_file_name(filename(n)); n += 1; }`),
with explicit fuel: starting at index `n`, return the first probed name not in
`fs`. -/
def probeAux (fs : List String) (f : Nat → String) : Nat → Nat → Option String
  | _, 0 => none
  | n, fuel + 1 => if f n ∈ fs then probeAux fs f (n + 1) fuel else some (f n)

/-- Destination-path resolution (`DestinationNamer.resolve`, lines 162-173 of
`main.rs`): create the year directory when absent, then probe
`filename(0), filename(1), ...` until a name that does not exist.  The fuel
`|fs| + 1` is shown sufficient below (`resolve_spec`). -/
def resolve (fs : List String) (dst : String) (dt : DateTime) (ext : Option String) :
    Option (List String × String) :=
  let yd := yearDirOf dst dt
  let fs1 := fsAfterMkdir fs yd
  match probeAux fs1 (fun n => yd ++ "/" ++ filename dt ext n) 0 (fs1.length + 1) with
  | some p => some (fs1, p)
  | none => none

/-- Rust's `str::to_ascii_lowercase`, character-wise. -/
def asciiLowerChar (c : Char) : Char :=
  if 65 ≤ c.toNat ∧ c.toNat ≤ 90 then Char.ofNat (c.toNat + 32) else c

/-- Rust's `str::to_ascii_lowercase`. -/
def asciiLower (s : String) : String := ⟨s.data.map asciiLowerChar⟩

/-- The extension dispatch of `main` (line 131): is the lowercased extension
one of `jpg`, `tif`, `tiff`? -/
def isExifExt : Option String → Bool
  | some e => asciiLower e = "jpg" ∨ asciiLower e = "tif" ∨ asciiLower e = "tiff"
  | none => false

/-- The date/time extraction step of `main` (lines 131-142): attempt EXIF
extraction only for recognised image extensions, and fall back to the
modification-time `DateTime` when the attempt fails or is not made.
`exifResult` stands for the outcome of `exif_datetime(path)` and `mt` for
`mtime_datetime(&file)`, both supplied by the environment. -/
def extractDatetime (ext : Option String) (exifResult : Except String DateTime)
    (mt : DateTime) : DateTime :=
  if isExifExt ext then
    match exifResult with
    | Except.ok dt => dt
    | Except.error _ => mt
  else mt

/-- `Debug` rendering of a path, as printed by `println!("{path:?} -> {new_path:?}")`. -/
def dbgPath (s : String) : String := "\"" ++ s ++ "\""

/-- One iteration of the driver loop of `main` for a single file, after the
date/time has been determined: resolve the destination, then either print the
mapping (dry run) or copy.  The result is the filesystem afterwards, the lines
printed to stdout, and the copies performed. -/
def mainStep (dryRun : Bool) (fs : List String) (dst : String) (srcPath : String)
    (dt : DateTime) (ext : Option String) :
    Option (List String × List String × List (String × String)) :=
  match resolve fs dst dt ext with
  | none => none
  | some (fs1, p) =>
    if dryRun then some (fs1, [dbgPath srcPath ++ " -> " ++ dbgPath p], [])
    else some (p :: fs1, [], [(srcPath, p)])

/-- The delimiter layout checked by `parse_exif_datetime`: colon (58) at
offsets 4, 7, 13, 16 and space (32) at offset 10. -/
def delimsOk (d : List Nat) : Prop :=
  d.getD 4 0 = 58 ∧ d.getD 7 0 = 58 ∧ d.getD 10 0 = 32 ∧ d.getD 13 0 = 58 ∧ d.getD 16 0 = 58

instance (d : List Nat) : Decidable (delimsOk d) := by
  unfold delimsOk; infer_instance

/-- Every byte of the six numeric fields (all offsets below 19 other than the
delimiter offsets) is an ASCII digit. -/
def fieldsDigits (d : List Nat) : Prop :=
  ∀ i, i < 19 → i ≠ 4 → i ≠ 7 → i ≠ 10 → i ≠ 13 → i ≠ 16 →
    48 ≤ d.getD i 0 ∧ d.getD i 0 ≤ 57

instance (d : List Nat) : Decidable (fieldsDigits d) :=
  Nat.decidableBallLT 19 _

/-- The `DateTime` assembled from the six fixed-width fields of a date/time
byte string. -/
def mkDT (d : List Nat) : DateTime :=
  { year := decVal (sliceBytes d 0 4), month := decVal (sliceBytes d 5 7),
    day := decVal (sliceBytes d 8 10), hour := decVal (sliceBytes d 11 13),
    minute := decVal (sliceBytes d 14 16), second := decVal (sliceBytes d 17 19) }

/-- Decimal value of a digit character string, starting from accumulator `acc`. -/
def chVal (acc : Nat) (l : List Char) : Nat :=
  l.foldl (fun a c => a * 10 + (c.toNat - 48)) acc

lemma decValFrom_le (l : List Nat) : ∀ acc : Nat, acc ≤ decValFrom acc l := by
  induction l with
  | nil => intro acc; exact Nat.le_refl acc
  | cons b bs ih =>
    intro acc
    have h1 : acc ≤ acc * 10 + (b - 48) := by
      have : acc * 1 ≤ acc * 10 := Nat.mul_le_mul_left acc (by omega)
      omega
    exact Nat.le_trans h1 (ih (acc * 10 + (b - 48)))

lemma atouGo_ok {max : Nat} (l : List Nat) (hd : ∀ b ∈ l, 48 ≤ b ∧ b ≤ 57) :
    ∀ acc : Nat, decValFrom acc l ≤ max → atouGo max acc l = Except.ok (decValFrom acc l) := by
  induction l with
  | nil => intro acc _; rfl
  | cons b bs ih =>
    intro acc h
    have hb := hd b (List.mem_cons_self b bs)
    have htail : ∀ x ∈ bs, 48 ≤ x ∧ x ≤ 57 := fun x hx => hd x (List.mem_cons_of_mem b hx)
    have hv : decValFrom acc (b :: bs) = decValFrom (acc * 10 + (b - 48)) bs := rfl
    have hge : acc * 10 + (b - 48) ≤ decValFrom (acc * 10 + (b - 48)) bs :=
      decValFrom_le bs (acc * 10 + (b - 48))
    rw [hv] at h ⊢
    show (if b < 48 ∨ 57 < b then Except.error "non-ascii digit"
      else if max < acc * 10 then Except.error "overflow"
      else if max < acc * 10 + (b - 48) then Except.error "overflow"
      else atouGo max (acc * 10 + (b - 48)) bs) = _
    rw [if_neg (by omega), if_neg (by omega), if_neg (by omega)]
    exact ih htail (acc * 10 + (b - 48)) h

lemma atouGo_overflow {max : Nat} (l : List Nat) (hd : ∀ b ∈ l, 48 ≤ b ∧ b ≤ 57) :
    ∀ acc : Nat, acc ≤ max → max < decValFrom acc l →
      (atouGo max acc l).isOk = false := by
  induction l with
  | nil => intro acc hle hlt; exact absurd hlt (by simp [decValFrom]; omega)
  | cons b bs ih =>
    intro acc hle hlt
    have hb := hd b (List.mem_cons_self b bs)
    have htail : ∀ x ∈ bs, 48 ≤ x ∧ x ≤ 57 := fun x hx => hd x (List.mem_cons_of_mem b hx)
    have hv : decValFrom acc (b :: bs) = decValFrom (acc * 10 + (b - 48)) bs := rfl
    rw [hv] at hlt
    show (if b < 48 ∨ 57 < b then Except.error "non-ascii digit"
      else if max < acc * 10 then Except.error "overflow"
      else if max < acc * 10 + (b - 48) then Except.error "overflow"
      else atouGo max (acc * 10 + (b - 48)) bs).isOk = false
    rw [if_neg (by omega)]
    by_cases h1 : max < acc * 10
    · rw [if_pos h1]; rfl
    · rw [if_neg h1]
      by_cases h2 : max < acc * 10 + (b - 48)
      · rw [if_pos h2]; rfl
      · rw [if_neg h2]
        exact ih htail (acc * 10 + (b - 48)) (by omega) hlt

lemma atouGo_nondigit {max : Nat} (l : List Nat)
    (hd : ∃ b ∈ l, ¬(48 ≤ b ∧ b ≤ 57)) :
    ∀ acc : Nat, (atouGo max acc l).isOk = false := by
  induction l with
  | nil => exact absurd hd (by simp)
  | cons b bs ih =>
    intro acc
    show (if b < 48 ∨ 57 < b then Except.error "non-ascii digit"
      else if max < acc * 10 then Except.error "overflow"
      else if max < acc * 10 + (b - 48) then Except.error "overflow"
      else atouGo max (acc * 10 + (b - 48)) bs).isOk = false
    by_cases hb : b < 48 ∨ 57 < b
    · rw [if_pos hb]; rfl
    · rw [if_neg hb]
      have hbs : ∃ x ∈ bs, ¬(48 ≤ x ∧ x ≤ 57) := by
        rcases hd with ⟨x, hx, hnx⟩
        rcases List.mem_cons.mp hx with h | h
        · subst h; exact absurd ⟨by omega, by omega⟩ hnx
        · exact ⟨x, h, hnx⟩
      by_cases h1 : max < acc * 10
      · rw [if_pos h1]; rfl
      · rw [if_neg h1]
        by_cases h2 : max < acc * 10 + (b - 48)
        · rw [if_pos h2]; rfl
        · rw [if_neg h2]; exact ih hbs (acc * 10 + (b - 48))

lemma atouGo_ok_inv {max : Nat} (l : List Nat) :
    ∀ acc v : Nat, atouGo max acc l = Except.ok v →
      (∀ b ∈ l, 48 ≤ b ∧ b ≤ 57) ∧ v = decValFrom acc l := by
  induction l with
  | nil =>
    intro acc v h
    refine ⟨by simp, ?_⟩
    have h' : (Except.ok acc : Except String Nat) = Except.ok v := h
    cases h'; rfl
  | cons b bs ih =>
    intro acc v h
    have hshow : atouGo max acc (b :: bs) =
      (if b < 48 ∨ 57 < b then Except.error "non-ascii digit"
      else if max < acc * 10 then Except.error "overflow"
      else if max < acc * 10 + (b - 48) then Except.error "overflow"
      else atouGo max (acc * 10 + (b - 48)) bs) := rfl
    rw [hshow] at h
    by_cases hb : b < 48 ∨ 57 < b
    · rw [if_pos hb] at h; cases h
    · rw [if_neg hb] at h
      by_cases h1 : max < acc * 10
      · rw [if_pos h1] at h; cases h
      · rw [if_neg h1] at h
        by_cases h2 : max < acc * 10 + (b - 48)
        · rw [if_pos h2] at h; cases h
        · rw [if_neg h2] at h
          rcases ih (acc * 10 + (b - 48)) v h with ⟨hall, hval⟩
          refine ⟨?_, hval⟩
          intro x hx
          rcases List.mem_cons.mp hx with hxb | hxbs
          · subst hxb; omega
          · exact hall x hxbs

lemma decValFrom_lt (l : List Nat) (hd : ∀ b ∈ l, 48 ≤ b ∧ b ≤ 57) :
    ∀ acc : Nat, decValFrom acc l < (acc + 1) * 10 ^ l.length := by
  induction l with
  | nil => intro acc; simp [decValFrom]
  | cons b bs ih =>
    intro acc
    have hb := hd b (List.mem_cons_self b bs)
    have htail : ∀ x ∈ bs, 48 ≤ x ∧ x ≤ 57 := fun x hx => hd x (List.mem_cons_of_mem b hx)
    have hv : decValFrom acc (b :: bs) = decValFrom (acc * 10 + (b - 48)) bs := rfl
    rw [hv]
    have h1 := ih htail (acc * 10 + (b - 48))
    have h2 : (acc * 10 + (b - 48) + 1) * 10 ^ bs.length ≤ (acc + 1) * 10 ^ (b :: bs).length := by
      have hlen : (b :: bs).length = bs.length + 1 := rfl
      rw [hlen, pow_succ]
      have : acc * 10 + (b - 48) + 1 ≤ (acc + 1) * 10 := by omega
      calc (acc * 10 + (b - 48) + 1) * 10 ^ bs.length
          ≤ (acc + 1) * 10 * 10 ^ bs.length := Nat.mul_le_mul_right _ this
        _ = (acc + 1) * (10 ^ bs.length * 10) := by ring
    omega

lemma sliceBytes_length {l : List Nat} {a e : Nat} (hae : a ≤ e) (he : e ≤ l.length) :
    (sliceBytes l a e).length = e - a := by
  unfold sliceBytes
  rw [List.length_take, List.length_drop]
  omega

lemma mem_sliceBytes {x : Nat} {l : List Nat} {a e : Nat} (hx : x ∈ sliceBytes l a e) :
    ∃ i, a ≤ i ∧ i < e ∧ i < l.length ∧ x = l.getD i 0 := by
  unfold sliceBytes at hx
  rcases List.mem_iff_getElem?.mp hx with ⟨j, hj⟩
  have hjlen : j < (List.take (e - a) (List.drop a l)).length := by
    by_contra hge
    rw [List.getElem?_eq_none (by omega)] at hj
    cases hj
  have hj1 : j < e - a ∧ j < l.length - a := by
    rw [List.length_take, List.length_drop] at hjlen
    omega
  have h1 : (List.take (e - a) (List.drop a l))[j]? = (List.drop a l)[j]? := by
    rw [List.getElem?_take, if_pos (by omega : j < e - a)]
  have h2 : (List.drop a l)[j]? = l[a + j]? := List.getElem?_drop l a j
  rw [h1, h2] at hj
  refine ⟨a + j, by omega, by omega, by omega, ?_⟩
  rw [List.getD_eq_getElem?_getD l (a + j) 0, hj]
  rfl

lemma getD_mem_sliceBytes {l : List Nat} {a e i : Nat} (hai : a ≤ i) (hie : i < e)
    (he : e ≤ l.length) : l.getD i 0 ∈ sliceBytes l a e := by
  unfold sliceBytes
  apply List.mem_iff_getElem?.mpr
  refine ⟨i - a, ?_⟩
  have h1 : (List.take (e - a) (List.drop a l))[i - a]? = (List.drop a l)[i - a]? := by
    rw [List.getElem?_take, if_pos (by omega : i - a < e - a)]
  have h2 : (List.drop a l)[i - a]? = l[a + (i - a)]? := List.getElem?_drop l a (i - a)
  rw [h1, h2]
  have h3 : a + (i - a) = i := by omega
  rw [h3]
  cases h5 : l[i]? with
  | none =>
    rw [List.getElem?_eq_none_iff] at h5
    omega
  | some v =>
    rw [List.getD_eq_getElem?_getD l i 0, h5]
    rfl

lemma blankColons_getD0 : blankColons.getD 0 0 = 32 := by decide

lemma blankSpaces_getD0 : blankSpaces.getD 0 0 = 32 := by decide

lemma parse_ok_of {d : List Nat} (hlen : 19 ≤ d.length) (hdel : delimsOk d)
    (hdig : fieldsDigits d) : parse_exif_datetime d = Except.ok (mkDT d) := by
  have h0 : 48 ≤ d.getD 0 0 ∧ d.getD 0 0 ≤ 57 := by
    exact hdig 0 (by omega) (by omega) (by omega) (by omega) (by omega) (by omega)
  have hnotblank : ¬(d = blankColons ∨ d = blankSpaces) := by
    rintro (h | h) <;> rw [h] at h0
    · rw [blankColons_getD0] at h0; omega
    · rw [blankSpaces_getD0] at h0; omega
  have hfield : ∀ a e : Nat, a ≤ e → e ≤ 19 →
      (∀ i, a ≤ i → i < e → i ≠ 4 → i ≠ 7 → i ≠ 10 → i ≠ 13 → i ≠ 16 → True) →
      (a = 0 ∧ e = 4 ∨ a = 5 ∧ e = 7 ∨ a = 8 ∧ e = 10 ∨ a = 11 ∧ e = 13 ∨
       a = 14 ∧ e = 16 ∨ a = 17 ∧ e = 19) →
      ∀ b ∈ sliceBytes d a e, 48 ≤ b ∧ b ≤ 57 := by
    intro a e hae he _ hcases b hb
    rcases mem_sliceBytes hb with ⟨i, hai, hie, hil, hval⟩
    rw [hval]
    exact hdig i (by omega) (by omega) (by omega) (by omega) (by omega) (by omega)
  have hdig04 := hfield 0 4 (by omega) (by omega) (fun _ _ _ _ _ _ _ _ => trivial) (by omega)
  have hdig57 := hfield 5 7 (by omega) (by omega) (fun _ _ _ _ _ _ _ _ => trivial) (by omega)
  have hdig810 := hfield 8 10 (by omega) (by omega) (fun _ _ _ _ _ _ _ _ => trivial) (by omega)
  have hdig1113 := hfield 11 13 (by omega) (by omega) (fun _ _ _ _ _ _ _ _ => trivial) (by omega)
  have hdig1416 := hfield 14 16 (by omega) (by omega) (fun _ _ _ _ _ _ _ _ => trivial) (by omega)
  have hdig1719 := hfield 17 19 (by omega) (by omega) (fun _ _ _ _ _ _ _ _ => trivial) (by omega)
  have hbound : ∀ a e : Nat, a ≤ e → e ≤ 19 → (∀ b ∈ sliceBytes d a e, 48 ≤ b ∧ b ≤ 57) →
      decVal (sliceBytes d a e) < 10 ^ (e - a) := by
    intro a e hae he hdg
    have := decValFrom_lt (sliceBytes d a e) hdg 0
    rw [sliceBytes_length hae (by omega)] at this
    simpa [decVal] using this
  have hy : atou U32MAX (sliceBytes d 0 4) = Except.ok (decVal (sliceBytes d 0 4)) := by
    have hb := hbound 0 4 (by omega) (by omega) hdig04
    have h4 : (10:Nat) ^ (4 - 0) = 10000 := by norm_num
    rw [h4] at hb
    simp only [decVal] at hb
    exact atouGo_ok _ hdig04 0 (by simp only [U32MAX]; omega)
  have hsmall : ∀ a e : Nat, a ≤ e → e ≤ 19 → e - a ≤ 2 →
      (∀ b ∈ sliceBytes d a e, 48 ≤ b ∧ b ≤ 57) →
      atou U8MAX (sliceBytes d a e) = Except.ok (decVal (sliceBytes d a e)) := by
    intro a e hae he hw hdg
    have hb := hbound a e hae he hdg
    have h2 : (10:Nat) ^ (e - a) ≤ 100 := by
      calc (10:Nat) ^ (e - a) ≤ 10 ^ 2 := Nat.pow_le_pow_right (by omega) hw
        _ = 100 := by norm_num
    simp only [decVal] at hb
    exact atouGo_ok _ hdg 0 (by simp only [U8MAX]; omega)
  have hm := hsmall 5 7 (by omega) (by omega) (by omega) hdig57
  have hd' := hsmall 8 10 (by omega) (by omega) (by omega) hdig810
  have hh := hsmall 11 13 (by omega) (by omega) (by omega) hdig1113
  have hmin := hsmall 14 16 (by omega) (by omega) (by omega) hdig1416
  have hs := hsmall 17 19 (by omega) (by omega) (by omega) hdig1719
  have hdc2 : ¬¬(d.getD 4 0 = 58 ∧ d.getD 7 0 = 58 ∧ d.getD 10 0 = 32 ∧
      d.getD 13 0 = 58 ∧ d.getD 16 0 = 58) := not_not_intro hdel
  unfold parse_exif_datetime
  rw [if_neg hnotblank, if_neg (by omega), if_neg hdc2]
  rw [hy, hm, hd', hh, hmin, hs]
  rfl

lemma parse_isOk_imp {d : List Nat} (h : (parse_exif_datetime d).isOk = true) :
    19 ≤ d.length ∧ delimsOk d ∧ fieldsDigits d := by
  unfold parse_exif_datetime at h
  by_cases hbl : d = blankColons ∨ d = blankSpaces
  · rw [if_pos hbl] at h; simp [Except.isOk, Except.toBool] at h
  rw [if_neg hbl] at h
  by_cases hl : d.length < 19
  · rw [if_pos hl] at h; simp [Except.isOk, Except.toBool] at h
  rw [if_neg hl] at h
  by_cases hdc : d.getD 4 0 = 58 ∧ d.getD 7 0 = 58 ∧ d.getD 10 0 = 32 ∧
      d.getD 13 0 = 58 ∧ d.getD 16 0 = 58
  case neg => rw [if_pos hdc] at h; simp [Except.isOk, Except.toBool] at h
  case pos =>
  rw [if_neg (not_not_intro hdc)] at h
  cases hy : atou U32MAX (sliceBytes d 0 4) with
  | error e => rw [hy] at h; simp [Except.isOk, Except.toBool] at h
  | ok year =>
  rw [hy] at h
  cases hm : atou U8MAX (sliceBytes d 5 7) with
  | error e => rw [hm] at h; simp [Except.isOk, Except.toBool] at h
  | ok month =>
  rw [hm] at h
  cases hd2 : atou U8MAX (sliceBytes d 8 10) with
  | error e => rw [hd2] at h; simp [Except.isOk, Except.toBool] at h
  | ok day =>
  rw [hd2] at h
  cases hh : atou U8MAX (sliceBytes d 11 13) with
  | error e => rw [hh] at h; simp [Except.isOk, Except.toBool] at h
  | ok hour =>
  rw [hh] at h
  cases hmi : atou U8MAX (sliceBytes d 14 16) with
  | error e => rw [hmi] at h; simp [Except.isOk, Except.toBool] at h
  | ok minute =>
  rw [hmi] at h
  cases hs : atou U8MAX (sliceBytes d 17 19) with
  | error e => rw [hs] at h; simp [Except.isOk, Except.toBool] at h
  | ok second =>
  have hy' := (atouGo_ok_inv _ 0 _ hy).1
  have hm' := (atouGo_ok_inv _ 0 _ hm).1
  have hd2' := (atouGo_ok_inv _ 0 _ hd2).1
  have hh' := (atouGo_ok_inv _ 0 _ hh).1
  have hmi' := (atouGo_ok_inv _ 0 _ hmi).1
  have hs' := (atouGo_ok_inv _ 0 _ hs).1
  refine ⟨by omega, hdc, ?_⟩
  intro i hi h4 h7 h10 h13 h16
  have hcase : i < 4 ∨ (5 ≤ i ∧ i < 7) ∨ (8 ≤ i ∧ i < 10) ∨ (11 ≤ i ∧ i < 13) ∨
      (14 ≤ i ∧ i < 16) ∨ (17 ≤ i ∧ i < 19) := by omega
  rcases hcase with hc | hc | hc | hc | hc | hc
  · exact hy' _ (getD_mem_sliceBytes (by omega) (by omega) (by omega))
  · exact hm' _ (getD_mem_sliceBytes (by omega) (by omega) (by omega))
  · exact hd2' _ (getD_mem_sliceBytes (by omega) (by omega) (by omega))
  · exact hh' _ (getD_mem_sliceBytes (by omega) (by omega) (by omega))
  · exact hmi' _ (getD_mem_sliceBytes (by omega) (by omega) (by omega))
  · exact hs' _ (getD_mem_sliceBytes (by omega) (by omega) (by omega))

lemma parse_toOption (d : List Nat) :
    (parse_exif_datetime d).toOption =
      if 19 ≤ d.length ∧ delimsOk d ∧ fieldsDigits d then some (mkDT d) else none := by
  by_cases hc : 19 ≤ d.length ∧ delimsOk d ∧ fieldsDigits d
  · rw [if_pos hc, parse_ok_of hc.1 hc.2.1 hc.2.2]; rfl
  · rw [if_neg hc]
    cases hp : parse_exif_datetime d with
    | error e => rfl
    | ok dt =>
      have : (parse_exif_datetime d).isOk = true := by rw [hp]; rfl
      exact absurd (parse_isOk_imp this) hc

lemma getD_take19 {l : List Nat} {i : Nat} (hi : i < 19) :
    (l.take 19).getD i 0 = l.getD i 0 := by
  by_cases hl : i < l.length
  · have h1 : i < (l.take 19).length := by rw [List.length_take]; omega
    rw [List.getD_eq_getElem _ 0 h1, List.getD_eq_getElem l 0 hl]
    exact List.getElem_take ..
  · have h1 : ¬ i < (l.take 19).length := by rw [List.length_take]; omega
    rw [List.getD_eq_default _ 0 (by omega), List.getD_eq_default _ 0 (by omega)]

lemma sliceBytes_take19 {l : List Nat} {a e : Nat} (he : e ≤ 19) :
    sliceBytes (l.take 19) a e = sliceBytes l a e := by
  unfold sliceBytes
  rw [List.drop_take, List.take_take]
  congr 1
  omega

lemma delimsOk_take19 (l : List Nat) : delimsOk (l.take 19) ↔ delimsOk l := by
  unfold delimsOk
  rw [getD_take19 (by omega), getD_take19 (by omega), getD_take19 (by omega),
      getD_take19 (by omega), getD_take19 (by omega)]

lemma fieldsDigits_take19 (l : List Nat) : fieldsDigits (l.take 19) ↔ fieldsDigits l := by
  unfold fieldsDigits
  constructor <;> intro h i hi h4 h7 h10 h13 h16
  · rw [← getD_take19 hi]; exact h i hi h4 h7 h10 h13 h16
  · rw [getD_take19 hi]; exact h i hi h4 h7 h10 h13 h16

lemma mkDT_take19 (l : List Nat) : mkDT (l.take 19) = mkDT l := by
  unfold mkDT
  rw [sliceBytes_take19 (by omega), sliceBytes_take19 (by omega), sliceBytes_take19 (by omega),
      sliceBytes_take19 (by omega), sliceBytes_take19 (by omega), sliceBytes_take19 (by omega)]

lemma digitChar_toNat {d : Nat} (hd : d < 10) : (digitChar d).toNat = 48 + d := by
  interval_cases d <;> rfl

lemma decChars_val : ∀ (fuel n acc : Nat), n < 10 ^ fuel →
    chVal acc (decChars fuel n) = acc * 10 ^ (decChars fuel n).length + n := by
  intro fuel
  induction fuel with
  | zero =>
    intro n acc hn
    have : n = 0 := by simpa using hn
    subst this
    simp [decChars, chVal]
  | succ fuel ih =>
    intro n acc hn
    by_cases h10 : n < 10
    · have hshow : decChars (fuel + 1) n = [digitChar n] := by
        unfold decChars; rw [if_pos h10]
      rw [hshow]
      simp [chVal, digitChar_toNat h10]
    · have hshow : decChars (fuel + 1) n = decChars fuel (n / 10) ++ [digitChar (n % 10)] := by
        rw [decChars, if_neg h10]
      rw [hshow]
      have hdiv : n / 10 < 10 ^ fuel := by
        rw [Nat.div_lt_iff_lt_mul (by omega)]
        calc n < 10 ^ (fuel + 1) := hn
          _ = 10 ^ fuel * 10 := by ring
      have hrec := ih (n / 10) acc hdiv
      unfold chVal at hrec ⊢
      rw [List.foldl_append]
      rw [hrec]
      have hmod : (digitChar (n % 10)).toNat - 48 = n % 10 := by
        rw [digitChar_toNat (Nat.mod_lt n (by omega))]; omega
      simp only [List.foldl_cons, List.foldl_nil, hmod]
      rw [List.length_append, List.length_singleton]
      calc (acc * 10 ^ (decChars fuel (n / 10)).length + n / 10) * 10 + n % 10
          = acc * (10 ^ (decChars fuel (n / 10)).length * 10) + (n / 10 * 10 + n % 10) := by
            ring
        _ = acc * 10 ^ ((decChars fuel (n / 10)).length + 1) + n := by
            rw [pow_succ]
            congr 1
            omega

lemma decChars_ne_nil {fuel n : Nat} (h : fuel ≠ 0) : decChars fuel n ≠ [] := by
  cases fuel with
  | zero => exact absurd rfl h
  | succ fuel =>
    unfold decChars
    by_cases h10 : n < 10
    · rw [if_pos h10]; simp
    · rw [if_neg h10]; simp

lemma natStr_val (n : Nat) : chVal 0 (natStr n).data = n := by
  have hn : n < 10 ^ (n + 1) := by
    calc n < 10 ^ n := Nat.lt_pow_self (by omega) n
      _ ≤ 10 ^ (n + 1) := Nat.pow_le_pow_right (by omega) (by omega)
  have := decChars_val (n + 1) n 0 hn
  simpa [natStr] using this

lemma natStr_inj {a b : Nat} (h : natStr a = natStr b) : a = b := by
  have hd : (natStr a).data = (natStr b).data := congrArg String.data h
  have ha := natStr_val a
  have hb := natStr_val b
  rw [hd] at ha
  omega

lemma natStr_data_ne_nil (n : Nat) : (natStr n).data ≠ [] := by
  unfold natStr
  exact decChars_ne_nil (by omega)

lemma cntString_data_inj {a b : Nat} (h : (cntString a).data = (cntString b).data) : a = b := by
  cases a with
  | zero =>
    cases b with
    | zero => rfl
    | succ b =>
      have ha : cntString 0 = "" := by unfold cntString; rw [if_neg (by omega)]
      have hb : cntString (b + 1) = natStr (b + 1) := by unfold cntString; rw [if_pos (by omega)]
      rw [ha, hb] at h
      exact absurd h.symm (natStr_data_ne_nil (b + 1))
  | succ a =>
    cases b with
    | zero =>
      have ha : cntString (a + 1) = natStr (a + 1) := by unfold cntString; rw [if_pos (by omega)]
      have hb : cntString 0 = "" := by unfold cntString; rw [if_neg (by omega)]
      rw [ha, hb] at h
      exact absurd h (natStr_data_ne_nil (a + 1))
    | succ b =>
      have ha : cntString (a + 1) = natStr (a + 1) := by unfold cntString; rw [if_pos (by omega)]
      have hb : cntString (b + 1) = natStr (b + 1) := by unfold cntString; rw [if_pos (by omega)]
      rw [ha, hb] at h
      have h1 := natStr_val (a + 1)
      have h2 := natStr_val (b + 1)
      rw [h] at h1
      omega

lemma filename_data_inj {dt : DateTime} {ext : Option String} {a b : Nat}
    (h : (filename dt ext a).data = (filename dt ext b).data) : a = b := by
  unfold filename at h
  simp only [String.data_append, List.append_assoc] at h
  have h1 := List.append_cancel_left h
  have h2 := List.append_cancel_right h1
  exact cntString_data_inj h2

lemma target_inj (dst : String) (dt : DateTime) (ext : Option String) :
    Function.Injective (fun n => yearDirOf dst dt ++ "/" ++ filename dt ext n) := by
  intro a b h
  have hd : (yearDirOf dst dt ++ "/" ++ filename dt ext a).data =
      (yearDirOf dst dt ++ "/" ++ filename dt ext b).data := congrArg String.data h
  simp only [String.data_append, List.append_assoc] at hd
  exact filename_data_inj (List.append_cancel_left (List.append_cancel_left hd))

lemma exists_fresh (fs : List String) (f : Nat → String) (hf : Function.Injective f) :
    ∃ j, j ≤ fs.length ∧ f j ∉ fs := by
  by_contra hcon
  push_neg at hcon
  have himg : (Finset.range (fs.length + 1)).image f ⊆ fs.toFinset := by
    intro x hx
    rcases Finset.mem_image.mp hx with ⟨j, hj, rfl⟩
    exact List.mem_toFinset.mpr (hcon j (Nat.lt_succ_iff.mp (Finset.mem_range.mp hj)))
  have hcard : ((Finset.range (fs.length + 1)).image f).card = fs.length + 1 := by
    rw [Finset.card_image_of_injective _ hf, Finset.card_range]
  have hle : fs.length + 1 ≤ fs.toFinset.card := by
    rw [← hcard]
    exact Finset.card_le_card himg
  have hfin : fs.toFinset.card ≤ fs.length := fs.toFinset_card_le
  omega

lemma probeAux_min (fs : List String) (f : Nat → String) :
    ∀ (m n fuel : Nat), (∀ k, k < m → f (n + k) ∈ fs) → f (n + m) ∉ fs → m < fuel →
      probeAux fs f n fuel = some (f (n + m)) := by
  intro m
  induction m with
  | zero =>
    intro n fuel hmem hout hfuel
    cases fuel with
    | zero => omega
    | succ fuel =>
      show (if f n ∈ fs then probeAux fs f (n + 1) fuel else some (f n)) = some (f (n + 0))
      rw [if_neg (by simpa using hout)]
      rfl
  | succ m ih =>
    intro n fuel hmem hout hfuel
    cases fuel with
    | zero => omega
    | succ fuel =>
      show (if f n ∈ fs then probeAux fs f (n + 1) fuel else some (f n)) = some (f (n + (m + 1)))
      rw [if_pos (by simpa using hmem 0 (by omega))]
      have hmem' : ∀ k, k < m → f (n + 1 + k) ∈ fs := by
        intro k hk
        have h2 := hmem (k + 1) (by omega)
        have he : n + (k + 1) = n + 1 + k := by omega
        rwa [he] at h2
      have hout' : f (n + 1 + m) ∉ fs := by
        have he : n + (m + 1) = n + 1 + m := by omega
        rwa [he] at hout
      rw [ih (n + 1) fuel hmem' hout' (by omega)]
      have he : n + 1 + m = n + (m + 1) := by omega
      rw [he]

lemma str_eq_of_data {s t : String} (h : s.data = t.data) : s = t := by
  cases s with
  | mk l1 =>
    cases t with
    | mk l2 =>
      have h2 : l1 = l2 := h
      rw [h2]

lemma mem_fsAfterMkdir {fs : List String} {yd q : String} (hq : q ∈ fs) :
    q ∈ fsAfterMkdir fs yd := by
  unfold fsAfterMkdir
  by_cases hyd : yd ∈ fs
  · rw [if_pos hyd]; exact hq
  · rw [if_neg hyd]; exact List.mem_cons_of_mem yd hq

lemma yearDir_mem_fsAfterMkdir (fs : List String) (yd : String) :
    yd ∈ fsAfterMkdir fs yd := by
  unfold fsAfterMkdir
  by_cases hyd : yd ∈ fs
  · rw [if_pos hyd]; exact hyd
  · rw [if_neg hyd]; exact List.mem_cons_self yd fs

lemma fsAfterMkdir_sub {fs : List String} {yd : String} :
    ∀ q ∈ fsAfterMkdir fs yd, q ∈ fs ∨ q = yd := by
  intro q hq
  unfold fsAfterMkdir at hq
  by_cases hyd : yd ∈ fs
  · rw [if_pos hyd] at hq; exact Or.inl hq
  · rw [if_neg hyd] at hq
    rcases List.mem_cons.mp hq with h | h
    · exact Or.inr h
    · exact Or.inl h

lemma resolve_spec (fs : List String) (dst : String) (dt : DateTime) (ext : Option String) :
    ∃ m : Nat,
      (∀ k, k < m →
        yearDirOf dst dt ++ "/" ++ filename dt ext k ∈ fsAfterMkdir fs (yearDirOf dst dt)) ∧
      yearDirOf dst dt ++ "/" ++ filename dt ext m ∉ fsAfterMkdir fs (yearDirOf dst dt) ∧
      resolve fs dst dt ext =
        some (fsAfterMkdir fs (yearDirOf dst dt),
              yearDirOf dst dt ++ "/" ++ filename dt ext m) := by
  obtain ⟨j, hj, hfresh⟩ :=
    exists_fresh (fsAfterMkdir fs (yearDirOf dst dt))
      (fun n => yearDirOf dst dt ++ "/" ++ filename dt ext n) (target_inj dst dt ext)
  have hex : ∃ k, (fun n => yearDirOf dst dt ++ "/" ++ filename dt ext n) k ∉
      fsAfterMkdir fs (yearDirOf dst dt) := ⟨j, hfresh⟩
  refine ⟨Nat.find hex, ?_, Nat.find_spec hex, ?_⟩
  · intro k hk
    exact not_not.mp (Nat.find_min hex hk)
  · have hmem : ∀ k, k < Nat.find hex →
        (fun n => yearDirOf dst dt ++ "/" ++ filename dt ext n) (0 + k) ∈
          fsAfterMkdir fs (yearDirOf dst dt) := by
      intro k hk
      rw [Nat.zero_add]
      exact not_not.mp (Nat.find_min hex hk)
    have hout : (fun n => yearDirOf dst dt ++ "/" ++ filename dt ext n) (0 + Nat.find hex) ∉
        fsAfterMkdir fs (yearDirOf dst dt) := by
      rw [Nat.zero_add]
      exact Nat.find_spec hex
    have hlt : Nat.find hex < (fsAfterMkdir fs (yearDirOf dst dt)).length + 1 := by
      have := Nat.find_min' hex hfresh
      omega
    have hprobe := probeAux_min (fsAfterMkdir fs (yearDirOf dst dt))
      (fun n => yearDirOf dst dt ++ "/" ++ filename dt ext n) (Nat.find hex) 0
      ((fsAfterMkdir fs (yearDirOf dst dt)).length + 1) hmem hout hlt
    rw [Nat.zero_add] at hprobe
    show (match probeAux (fsAfterMkdir fs (yearDirOf dst dt))
        (fun n => yearDirOf dst dt ++ "/" ++ filename dt ext n) 0
        ((fsAfterMkdir fs (yearDirOf dst dt)).length + 1) with
      | some p => some (fsAfterMkdir fs (yearDirOf dst dt), p)
      | none => none) =
      some (fsAfterMkdir fs (yearDirOf dst dt),
            yearDirOf dst dt ++ "/" ++ filename dt ext (Nat.find hex))
    rw [hprobe]

lemma strData_empty : ("" : String).data = [] := rfl

lemma strData_dot : ("." : String).data = ['.'] := rfl

/-- Claim C1: every destination-path resolution returns a path that does not
exist in the filesystem at the time of the call and that lies inside the
year-named subdirectory of the destination root, and the year directory is
present afterwards, having been created exactly when it was missing. -/
theorem claim_C1 (fs : List String) (dst : String) (dt : DateTime) (ext : Option String) :
    ∃ fs1 p, resolve fs dst dt ext = some (fs1, p) ∧
      p ∉ fs ∧
      (∃ rest, p = yearDirOf dst dt ++ "/" ++ rest) ∧
      yearDirOf dst dt ∈ fs1 ∧
      (yearDirOf dst dt ∉ fs → fs1 = yearDirOf dst dt :: fs) := by
  obtain ⟨m, hmem, hout, hres⟩ := resolve_spec fs dst dt ext
  refine ⟨fsAfterMkdir fs (yearDirOf dst dt), yearDirOf dst dt ++ "/" ++ filename dt ext m,
    hres, ?_, ⟨filename dt ext m, rfl⟩, yearDir_mem_fsAfterMkdir fs (yearDirOf dst dt), ?_⟩
  · intro hmem2
    exact hout (mem_fsAfterMkdir hmem2)
  · intro hnot
    unfold fsAfterMkdir
    rw [if_neg hnot]

/-- Witness for C1 at a concrete resolution into an empty destination. -/
theorem claim_C1_witness :
    ∃ fs1 p, resolve [] "dst" ⟨2022, 1, 1, 0, 0, 0⟩ none = some (fs1, p) ∧
      p ∉ ([] : List String) ∧
      (∃ rest, p = yearDirOf "dst" ⟨2022, 1, 1, 0, 0, 0⟩ ++ "/" ++ rest) ∧
      yearDirOf "dst" ⟨2022, 1, 1, 0, 0, 0⟩ ∈ fs1 ∧
      (yearDirOf "dst" ⟨2022, 1, 1, 0, 0, 0⟩ ∉ ([] : List String) →
        fs1 = yearDirOf "dst" ⟨2022, 1, 1, 0, 0, 0⟩ :: []) :=
  claim_C1 [] "dst" ⟨2022, 1, 1, 0, 0, 0⟩ none

/-- Claim C2: every 19-byte input with digits in all six fields and the
correct delimiters (and which is not a blank sentinel) parses successfully
into the `DateTime` whose fields are the decimal values of the six
fixed-width slices. -/
theorem claim_C2 (data : List Nat) (hlen : data.length = 19)
    (_hb1 : data ≠ blankColons) (_hb2 : data ≠ blankSpaces)
    (h4 : data.getD 4 0 = 58) (h7 : data.getD 7 0 = 58) (h10 : data.getD 10 0 = 32)
    (h13 : data.getD 13 0 = 58) (h16 : data.getD 16 0 = 58)
    (hdig : ∀ i, i < 19 → i ≠ 4 → i ≠ 7 → i ≠ 10 → i ≠ 13 → i ≠ 16 →
      48 ≤ data.getD i 0 ∧ data.getD i 0 ≤ 57) :
    parse_exif_datetime data =
      Except.ok { year := decVal (sliceBytes data 0 4), month := decVal (sliceBytes data 5 7),
                  day := decVal (sliceBytes data 8 10), hour := decVal (sliceBytes data 11 13),
                  minute := decVal (sliceBytes data 14 16),
                  second := decVal (sliceBytes data 17 19) } :=
  parse_ok_of (by omega) ⟨h4, h7, h10, h13, h16⟩ hdig

/-- Witness for C2 on the concrete tag value `2014:07:21 16:30:05`. -/
theorem claim_C2_witness :
    parse_exif_datetime (strBytes "2014:07:21 16:30:05") =
      Except.ok { year := 2014, month := 7, day := 21, hour := 16, minute := 30, second := 5 } :=
  claim_C2 (strBytes "2014:07:21 16:30:05") (by decide) (by decide) (by decide) (by decide)
    (by decide) (by decide) (by decide) (by decide)
    (by decide : fieldsDigits (strBytes "2014:07:21 16:30:05"))

/-- Claim C3: when the first `m` probed names (base name included) already
exist and the `m`-th suffixed variant does not, resolution returns exactly
that variant — the counter starts at 1 and increases by 1 per collision —
and for every counter value `j ≥ 1` the name is the timestamp immediately
followed by the bare decimal counter and then the extension suffix. -/
theorem claim_C3 (fs : List String) (dst : String) (dt : DateTime) (ext : Option String)
    (m : Nat)
    (hmem : ∀ k, k < m →
      yearDirOf dst dt ++ "/" ++ filename dt ext k ∈ fsAfterMkdir fs (yearDirOf dst dt))
    (hout : yearDirOf dst dt ++ "/" ++ filename dt ext m ∉ fsAfterMkdir fs (yearDirOf dst dt)) :
    resolve fs dst dt ext =
      some (fsAfterMkdir fs (yearDirOf dst dt), yearDirOf dst dt ++ "/" ++ filename dt ext m) ∧
    ∀ j, 1 ≤ j → filename dt ext j = stampStr dt ++ natStr j ++ extString ext := by
  obtain ⟨m2, hmem2, hout2, hres⟩ := resolve_spec fs dst dt ext
  have heq : m = m2 := by
    by_contra hne
    rcases Nat.lt_or_ge m m2 with hlt | hge
    · exact hout (hmem2 m hlt)
    · have hlt2 : m2 < m := by omega
      exact hout2 (hmem m2 hlt2)
  constructor
  · rw [heq]; exact hres
  · intro j hj
    unfold filename cntString
    rw [if_pos (by omega : 0 < j)]

/-- Witness for C3: with `dst/2023/2023-05-01 12.00.00.jpg` present the next
resolution yields `...001.jpg`, and with that present too the next yields
`...002.jpg`. -/
theorem claim_C3_witness :
    resolve ["dst/2023", "dst/2023/2023-05-01 12.00.00.jpg"] "dst"
        ⟨2023, 5, 1, 12, 0, 0⟩ (some "jpg") =
      some (["dst/2023", "dst/2023/2023-05-01 12.00.00.jpg"],
            "dst/2023/2023-05-01 12.00.001.jpg") ∧
    resolve ["dst/2023/2023-05-01 12.00.001.jpg", "dst/2023",
             "dst/2023/2023-05-01 12.00.00.jpg"] "dst"
        ⟨2023, 5, 1, 12, 0, 0⟩ (some "jpg") =
      some (["dst/2023/2023-05-01 12.00.001.jpg", "dst/2023",
             "dst/2023/2023-05-01 12.00.00.jpg"],
            "dst/2023/2023-05-01 12.00.002.jpg") := by
  constructor
  · have h := (claim_C3 ["dst/2023", "dst/2023/2023-05-01 12.00.00.jpg"] "dst"
      ⟨2023, 5, 1, 12, 0, 0⟩ (some "jpg") 1 (by decide) (by decide)).1
    exact h.trans (by decide)
  · have h := (claim_C3 ["dst/2023/2023-05-01 12.00.001.jpg", "dst/2023",
      "dst/2023/2023-05-01 12.00.00.jpg"] "dst"
      ⟨2023, 5, 1, 12, 0, 0⟩ (some "jpg") 2 (by decide) (by decide)).1
    exact h.trans (by decide)

/-- Claim C4: the date/time extraction step is total — an EXIF error is
absorbed and replaced by the modification-time fallback, an unsupported
extension always yields the fallback, and a successful EXIF parse on a
supported extension is used as is. -/
theorem claim_C4 (ext : Option String) (mt dt0 : DateTime) (e : String)
    (r : Except String DateTime) :
    extractDatetime ext (Except.error e) mt = mt ∧
    (isExifExt ext = false → extractDatetime ext r mt = mt) ∧
    (isExifExt ext = true → extractDatetime ext (Except.ok dt0) mt = dt0) := by
  refine ⟨?_, ?_, ?_⟩
  · unfold extractDatetime
    split <;> rfl
  · intro h
    simp [extractDatetime, h]
  · intro h
    simp [extractDatetime, h]

/-- Witness for C4: a `png` never uses the EXIF result, an uppercase `JPG`
uses a successful parse, and a `jpg` with a failed parse falls back. -/
theorem claim_C4_witness :
    extractDatetime (some "png") (Except.ok ⟨2020, 1, 2, 3, 4, 5⟩) ⟨1999, 12, 31, 23, 59, 58⟩ =
      ⟨1999, 12, 31, 23, 59, 58⟩ ∧
    extractDatetime (some "JPG") (Except.ok ⟨2020, 1, 2, 3, 4, 5⟩) ⟨1999, 12, 31, 23, 59, 58⟩ =
      ⟨2020, 1, 2, 3, 4, 5⟩ ∧
    extractDatetime (some "jpg") (Except.error "bad tag") ⟨1999, 12, 31, 23, 59, 58⟩ =
      ⟨1999, 12, 31, 23, 59, 58⟩ := by
  refine ⟨?_, ?_, ?_⟩
  · exact (claim_C4 (some "png") ⟨1999, 12, 31, 23, 59, 58⟩ ⟨2020, 1, 2, 3, 4, 5⟩ "bad tag"
      (Except.ok ⟨2020, 1, 2, 3, 4, 5⟩)).2.1 (by decide)
  · exact (claim_C4 (some "JPG") ⟨1999, 12, 31, 23, 59, 58⟩ ⟨2020, 1, 2, 3, 4, 5⟩ "bad tag"
      (Except.ok ⟨2020, 1, 2, 3, 4, 5⟩)).2.2 (by decide)
  · exact (claim_C4 (some "jpg") ⟨1999, 12, 31, 23, 59, 58⟩ ⟨2020, 1, 2, 3, 4, 5⟩ "bad tag"
      (Except.error "bad tag")).1

/-- Counterexample to C5 as stated: a dry run on an empty destination still
creates the year directory `d/2022`, so the filesystem is mutated. -/
theorem claim_C5_counterexample :
    mainStep true [] "d" "s" ⟨2022, 1, 1, 0, 0, 0⟩ none =
      some (["d/2022"], ["\"s\" -> \"d/2022/2022-01-01 00.00.00\""], []) ∧
    (["d/2022"] : List String) ≠ [] := by
  exact ⟨by decide, by decide⟩

/-- Claim C5 (amended): with `--dry-run`, each processed file prints the
source-to-destination mapping and performs no copy, but the year directory is
still created when missing — that directory is the only possible mutation. -/
theorem claim_C5 (fs : List String) (dst srcPath : String) (dt : DateTime)
    (ext : Option String) :
    ∃ fs1 p, resolve fs dst dt ext = some (fs1, p) ∧
      mainStep true fs dst srcPath dt ext =
        some (fs1, [dbgPath srcPath ++ " -> " ++ dbgPath p], []) ∧
      (fs1 = fs ∨ fs1 = yearDirOf dst dt :: fs) := by
  obtain ⟨m, hmem, hout, hres⟩ := resolve_spec fs dst dt ext
  refine ⟨fsAfterMkdir fs (yearDirOf dst dt), yearDirOf dst dt ++ "/" ++ filename dt ext m,
    hres, ?_, ?_⟩
  · unfold mainStep
    rw [hres]
    rfl
  · unfold fsAfterMkdir
    by_cases h : yearDirOf dst dt ∈ fs
    · rw [if_pos h]; exact Or.inl rfl
    · rw [if_neg h]; exact Or.inr rfl

/-- Claim C6: `atou` fails on any non-digit byte, fails when the all-digit
value exceeds the bound of the target type, and otherwise returns the decimal
value of the digit string. -/
theorem claim_C6 (max : Nat) (bytes : List Nat) :
    ((∃ b ∈ bytes, ¬(48 ≤ b ∧ b ≤ 57)) → (atou max bytes).isOk = false) ∧
    ((∀ b ∈ bytes, 48 ≤ b ∧ b ≤ 57) → max < decVal bytes → (atou max bytes).isOk = false) ∧
    ((∀ b ∈ bytes, 48 ≤ b ∧ b ≤ 57) → decVal bytes ≤ max →
      atou max bytes = Except.ok (decVal bytes)) := by
  refine ⟨?_, ?_, ?_⟩
  · intro h
    exact atouGo_nondigit bytes h 0
  · intro hd h
    exact atouGo_overflow bytes hd 0 (by omega) h
  · intro hd h
    exact atouGo_ok bytes hd 0 h

/-- Witness for C6 at the `u8` bound: `2x` has a non-digit, `256` overflows,
`255` parses. -/
theorem claim_C6_witness :
    (atou U8MAX (strBytes "2x")).isOk = false ∧
    (atou U8MAX (strBytes "256")).isOk = false ∧
    atou U8MAX (strBytes "255") = Except.ok 255 := by
  refine ⟨?_, ?_, ?_⟩
  · exact (claim_C6 U8MAX (strBytes "2x")).1 (by decide)
  · exact (claim_C6 U8MAX (strBytes "256")).2.1 (by decide) (by decide)
  · exact (claim_C6 U8MAX (strBytes "255")).2.2 (by decide) (by decide)

/-- Claim C7: both blank sentinels are rejected by `parse_exif_datetime`, and
on a supported extension the extraction step then falls back to the
modification-time value. -/
theorem claim_C7 (mt : DateTime) :
    (parse_exif_datetime blankColons).isOk = false ∧
    (parse_exif_datetime blankSpaces).isOk = false ∧
    extractDatetime (some "jpg") (parse_exif_datetime blankColons) mt = mt ∧
    extractDatetime (some "jpg") (parse_exif_datetime blankSpaces) mt = mt := by
  exact ⟨by decide, by decide, rfl, rfl⟩

/-- Claim C8: no calendar validation — any input of length at least 19 with
the right delimiters and all-digit fields parses successfully, whatever the
field values. -/
theorem claim_C8 (data : List Nat) (hlen : 19 ≤ data.length)
    (h4 : data.getD 4 0 = 58) (h7 : data.getD 7 0 = 58) (h10 : data.getD 10 0 = 32)
    (h13 : data.getD 13 0 = 58) (h16 : data.getD 16 0 = 58)
    (hdig : ∀ i, i < 19 → i ≠ 4 → i ≠ 7 → i ≠ 10 → i ≠ 13 → i ≠ 16 →
      48 ≤ data.getD i 0 ∧ data.getD i 0 ≤ 57) :
    (parse_exif_datetime data).isOk = true := by
  rw [parse_ok_of hlen ⟨h4, h7, h10, h13, h16⟩ hdig]
  rfl

/-- Witness for C8: month 13 is impossible on a calendar, day 45, hour 25,
minute 61 and second 99 likewise, yet the parse succeeds. -/
theorem claim_C8_witness :
    (parse_exif_datetime (strBytes "2023:13:45 25:61:99")).isOk = true :=
  claim_C8 (strBytes "2023:13:45 25:61:99") (by decide) (by decide) (by decide) (by decide)
    (by decide) (by decide) (by decide : fieldsDigits (strBytes "2023:13:45 25:61:99"))

/-- Claim C10: the outcome of `parse_exif_datetime` depends only on the first
19 bytes — two inputs of length at least 19 agreeing there either both fail
or both succeed with equal values. -/
theorem claim_C10 (d1 d2 : List Nat) (h1 : 19 ≤ d1.length) (h2 : 19 ≤ d2.length)
    (h : d1.take 19 = d2.take 19) :
    (parse_exif_datetime d1).toOption = (parse_exif_datetime d2).toOption := by
  rw [parse_toOption, parse_toOption]
  have hdel : delimsOk d1 ↔ delimsOk d2 := by
    rw [← delimsOk_take19 d1, ← delimsOk_take19 d2, h]
  have hdig : fieldsDigits d1 ↔ fieldsDigits d2 := by
    rw [← fieldsDigits_take19 d1, ← fieldsDigits_take19 d2, h]
  have hmk : mkDT d1 = mkDT d2 := by
    rw [← mkDT_take19 d1, ← mkDT_take19 d2, h]
  by_cases hc : delimsOk d1 ∧ fieldsDigits d1
  · rw [if_pos ⟨h1, hc.1, hc.2⟩, if_pos ⟨h2, hdel.mp hc.1, hdig.mp hc.2⟩, hmk]
  · rw [if_neg ?hn1, if_neg ?hn2]
    case hn1 =>
      rintro ⟨-, hdl, hdg⟩
      exact hc ⟨hdl, hdg⟩
    case hn2 =>
      rintro ⟨-, hdl, hdg⟩
      exact hc ⟨hdel.mpr hdl, hdig.mpr hdg⟩

/-- Witness for C10: appending a byte after offset 18 does not change the
parse outcome. -/
theorem claim_C10_witness :
    (parse_exif_datetime (strBytes "2014:07:21 16:30:05")).toOption =
      (parse_exif_datetime (strBytes "2014:07:21 16:30:05" ++ [65])).toOption :=
  claim_C10 (strBytes "2014:07:21 16:30:05") (strBytes "2014:07:21 16:30:05" ++ [65])
    (by decide) (by decide) (by decide)

/-- Claim C9: the base destination filename is exactly the padded timestamp
`{year:04}-{month:02}-{day:02} {hour:02}.{minute:02}.{second:02}`, followed
by a dot and the extension when the source has one, and by nothing at all
(no trailing dot) when it has none. -/
theorem claim_C9 :
    (∀ (dt : DateTime) (e : String), filename dt (some e) 0 = stampStr dt ++ "." ++ e) ∧
    (∀ dt : DateTime, filename dt none 0 = stampStr dt) ∧
    stampStr ⟨2021, 6, 15, 8, 30, 0⟩ = "2021-06-15 08.30.00" ∧
    filename ⟨2021, 6, 15, 8, 30, 0⟩ (some "jpg") 0 = "2021-06-15 08.30.00.jpg" ∧
    filename ⟨33, 5, 1, 12, 0, 7⟩ none 0 = "0033-05-01 12.00.07" := by
  refine ⟨?_, ?_, by decide, by decide, by decide⟩
  · intro dt e
    apply str_eq_of_data
    simp [filename, cntString, extString, String.data_append, strData_empty, strData_dot]
  · intro dt
    apply str_eq_of_data
    simp [filename, cntString, extString, String.data_append, strData_empty]
